import Mathlib

/-!
Verification of the meowny ledger-consistency engine.

The definitions below are shallow embeddings of the TypeScript services in
src/services (TransactionService, LendBorrowService, BudgetService) and the
BillReminderService.  Amounts (SQLite `real`) are modelled as rationals,
entity tables as lists of records, thrown JS errors as an `Except` whose
error value carries the store state at the moment of the throw, and
`crypto.randomUUID()` as an explicitly passed fresh identifier.
-/

/-- Transaction type column: income, expense or transfer. -/
inductive TxType where
  | income
  | expense
  | transfer
deriving DecidableEq, Repr

/-- A wallet row, restricted to the columns the balance mutator touches. -/
structure Wallet where
  id : String
  balance : ℚ
deriving DecidableEq, Repr

/-- A transaction row, restricted to the columns that drive balance effects. -/
structure Transaction where
  id : String
  walletId : String
  type : TxType
  amount : ℚ
  toWalletId : Option String
  transferFee : Option ℚ
deriving DecidableEq, Repr

/-- The caller-supplied draft for TransactionService.create (id is generated). -/
structure TxDraft where
  walletId : String
  type : TxType
  amount : ℚ
  toWalletId : Option String
  transferFee : Option ℚ
deriving DecidableEq, Repr

/-- A patch for TransactionService.update: present fields overwrite. -/
structure TxPatch where
  walletId : Option String
  type : Option TxType
  amount : Option ℚ
  toWalletId : Option (Option String)
  transferFee : Option (Option ℚ)
deriving DecidableEq, Repr

/-- The slice of the Ledger Store the Transaction Manager reads and writes. -/
structure LedgerState where
  wallets : List Wallet
  transactions : List Transaction
deriving DecidableEq, Repr

/-- Errors thrown by the services: an explicit "not found" Error, or the
TypeError raised by dereferencing an undefined row. -/
inductive SvcError where
  | notFound
  | undefinedAccess
deriving DecidableEq, Repr

/-- TransactionService.updateWalletBalance: applies the balance effect of a
transaction to the wallet table (income adds, expense subtracts, transfer
moves amount and charges the fee to the source; a transfer with no
destination wallet is a no-op). -/
def updateWalletBalance (t : Transaction) (ws : List Wallet) : List Wallet :=
  match t.type with
  | TxType.income =>
      ws.map (fun w => if w.id == t.walletId then { w with balance := w.balance + t.amount } else w)
  | TxType.expense =>
      ws.map (fun w => if w.id == t.walletId then { w with balance := w.balance - t.amount } else w)
  | TxType.transfer =>
      match t.toWalletId with
      | some dest =>
          ((ws.map (fun w => if w.id == t.walletId then { w with balance := w.balance - t.amount - t.transferFee.getD 0 } else w)).map
            (fun w => if w.id == dest then { w with balance := w.balance + t.amount } else w))
      | none => ws

/-- TransactionService.reverseWalletBalance: the reversal used by update and
delete; mirrors updateWalletBalance with every sign flipped. -/
def reverseWalletBalance (t : Transaction) (ws : List Wallet) : List Wallet :=
  match t.type with
  | TxType.income =>
      ws.map (fun w => if w.id == t.walletId then { w with balance := w.balance - t.amount } else w)
  | TxType.expense =>
      ws.map (fun w => if w.id == t.walletId then { w with balance := w.balance + t.amount } else w)
  | TxType.transfer =>
      match t.toWalletId with
      | some dest =>
          ((ws.map (fun w => if w.id == t.walletId then { w with balance := w.balance + t.amount + t.transferFee.getD 0 } else w)).map
            (fun w => if w.id == dest then { w with balance := w.balance - t.amount } else w))
      | none => ws

/-- Modelled from the spec: the per-wallet balance delta table of the Balance
Mutator contract (section 4.1), as a function of transaction, sign and wallet
id.  Used only to compare the two source functions above against the spec. -/
def specBalanceDelta (t : Transaction) (sign : ℚ) (wid : String) : ℚ :=
  match t.type with
  | TxType.income => if wid == t.walletId then t.amount * sign else 0
  | TxType.expense => if wid == t.walletId then -(t.amount * sign) else 0
  | TxType.transfer =>
      match t.toWalletId with
      | some dest =>
          (if wid == t.walletId then -((t.amount + t.transferFee.getD 0) * sign) else 0) +
            (if wid == dest then t.amount * sign else 0)
      | none => 0

/-- Observer: balance of the wallet with the given id, if present. -/
def walletBalance (ws : List Wallet) (wid : String) : Option ℚ :=
  (ws.find? (fun w => w.id == wid)).map (fun w => w.balance)

/-- Applying a TypeScript Partial patch: fields present in the patch
overwrite, absent fields are kept; the id is never part of the patch. -/
def applyPatch (p : TxPatch) (t : Transaction) : Transaction :=
  { id := t.id
    walletId := p.walletId.getD t.walletId
    type := p.type.getD t.type
    amount := p.amount.getD t.amount
    toWalletId := p.toWalletId.getD t.toWalletId
    transferFee := p.transferFee.getD t.transferFee }

/-- TransactionService.create: inserts the row under a freshly generated id
(here passed explicitly, modelling crypto.randomUUID), then applies the
balance effect, and returns the persisted transaction. -/
def TransactionService.create (freshId : String) (draft : TxDraft) (st : LedgerState) :
    Transaction × LedgerState :=
  let t : Transaction :=
    ⟨freshId, draft.walletId, draft.type, draft.amount, draft.toWalletId, draft.transferFee⟩
  (t, ⟨updateWalletBalance t st.wallets, st.transactions ++ [t]⟩)

/-- TransactionService.update: loads the old row, reverses its balance
effect when present, patches the row, then applies the new balance effect.
When no row matched, the returned row is undefined and dereferencing it in
updateWalletBalance throws a TypeError; the error carries the store state
at the moment of the throw. -/
def TransactionService.update (id : String) (p : TxPatch) (st : LedgerState) :
    Except (SvcError × LedgerState) (Transaction × LedgerState) :=
  let st1 : LedgerState :=
    match st.transactions.find? (fun t => t.id == id) with
    | some oldT => ⟨reverseWalletBalance oldT st.wallets, st.transactions⟩
    | none => st
  let newRows := st1.transactions.map (fun t => if t.id == id then applyPatch p t else t)
  match newRows.find? (fun t => t.id == id) with
  | some newT => Except.ok (newT, ⟨updateWalletBalance newT st1.wallets, newRows⟩)
  | none => Except.error (SvcError.undefinedAccess, ⟨st1.wallets, newRows⟩)

/-- TransactionService.delete: reverses the balance effect when the row
exists (silently skipped otherwise), then removes the row. -/
def TransactionService.delete (id : String) (st : LedgerState) : LedgerState :=
  let st1 : LedgerState :=
    match st.transactions.find? (fun t => t.id == id) with
    | some t => ⟨reverseWalletBalance t st.wallets, st.transactions⟩
    | none => st
  ⟨st1.wallets, st1.transactions.filter (fun t => !(t.id == id))⟩

/-- Sample transfer transaction used to instantiate the C1 theorem. -/
def c1tx : Transaction := ⟨"tx", "A", TxType.transfer, 100, some "B", some 5⟩

/-- Sample transfer with absent destination wallet (the no-op case). -/
def c1txNoDest : Transaction := ⟨"tx", "A", TxType.transfer, 100, none, some 5⟩

/-- Sample wallet table for the C1 witness. -/
def c1ws : List Wallet := [⟨"A", 1000⟩, ⟨"B", 50⟩, ⟨"C", 7⟩]

/-- Initial store of the spec example for C2: wallet A with balance 1000. -/
def c2st : LedgerState := ⟨[⟨"A", 1000⟩], []⟩

/-- The spec example draft for C2: an expense of 200 on wallet A. -/
def c2draft : TxDraft := ⟨"A", TxType.expense, 200, none, none⟩

/-- Initial store of the spec example for C3: A = 1000, B = 0. -/
def c3st0 : LedgerState := ⟨[⟨"A", 1000⟩, ⟨"B", 0⟩], []⟩

/-- The C3 example draft: an income of 500 on wallet A. -/
def c3draft : TxDraft := ⟨"A", TxType.income, 500, none, none⟩

/-- Store after creating the C3 example income (A = 1500). -/
def c3stc : LedgerState := (TransactionService.create "t1" c3draft c3st0).2

/-- The transaction created in the C3 example. -/
def c3oldTx : Transaction := ⟨"t1", "A", TxType.income, 500, none, none⟩

/-- The C3 example patch: move the transaction to wallet B. -/
def c3patch : TxPatch := ⟨some "B", none, none, none, none⟩

/-- A patch with no fields, used for the C4 counterexample. -/
def emptyPatch : TxPatch := ⟨none, none, none, none, none⟩

/-- Concrete store for the C4 counterexample: one wallet, no transactions. -/
def c4st : LedgerState := ⟨[⟨"A", 1000⟩], []⟩

/-- LendBorrow status column: pending, partial (partiallyPaid) or completed. -/
inductive LBStatus where
  | pending
  | partiallyPaid
  | completed
deriving DecidableEq, Repr

/-- A lend/borrow row, restricted to the columns the Debt Tracker recomputes. -/
structure LendBorrow where
  id : String
  amount : ℚ
  remainingAmount : ℚ
  status : LBStatus
deriving DecidableEq, Repr

/-- A payment row owned by a lend/borrow record. -/
structure LendBorrowPayment where
  id : String
  lendBorrowId : String
  amount : ℚ
deriving DecidableEq, Repr

/-- Caller-supplied fields of LendBorrowService.create. -/
structure NewLendBorrow where
  amount : ℚ
  remainingAmount : ℚ
  status : Option LBStatus
deriving DecidableEq, Repr

/-- Caller-supplied fields of LendBorrowService.addPayment. -/
structure PaymentDraft where
  amount : ℚ
deriving DecidableEq, Repr

/-- The slice of the Ledger Store the Debt Tracker reads and writes. -/
structure DebtState where
  records : List LendBorrow
  payments : List LendBorrowPayment
deriving DecidableEq, Repr

/-- JavaScript Math.max on two numbers. -/
def mathMax (a b : ℚ) : ℚ := if a ≤ b then b else a

/-- The reduce((sum, p) => sum + p.amount, 0) over a payment list. -/
def paymentsSum (l : List LendBorrowPayment) : ℚ := l.foldl (fun s p => s + p.amount) 0

/-- The status chain of addPayment: completed when the new remaining is at
most 0, partial when strictly below the original amount, else the stored
status is kept. -/
def newStatusAfterPayment (record : LendBorrow) (newRemaining : ℚ) : LBStatus :=
  if newRemaining ≤ 0 then LBStatus.completed
  else if newRemaining < record.amount then LBStatus.partiallyPaid
  else record.status

/-- The status chain of deletePayment: identical thresholds, but the
baseline is pending instead of the stored status. -/
def statusFromRemaining (amount newRemaining : ℚ) : LBStatus :=
  if newRemaining ≤ 0 then LBStatus.completed
  else if newRemaining < amount then LBStatus.partiallyPaid
  else LBStatus.pending

/-- LendBorrowService.create: remainingAmount falls back to amount when the
supplied value is falsy (in JavaScript the number 0 is falsy), status
defaults to pending. -/
def LendBorrowService.create (freshId : String) (rec : NewLendBorrow) (st : DebtState) :
    LendBorrow × DebtState :=
  let r : LendBorrow :=
    ⟨freshId, rec.amount,
      if rec.remainingAmount = 0 then rec.amount else rec.remainingAmount,
      rec.status.getD LBStatus.pending⟩
  (r, ⟨st.records ++ [r], st.payments⟩)

/-- LendBorrowService.addPayment: throws NotFound when the record is absent
(before inserting anything); otherwise inserts the payment row, then updates
the record from the stored remaining amount decremented by the new payment. -/
def LendBorrowService.addPayment (freshId lbId : String) (pay : PaymentDraft) (st : DebtState) :
    Except (SvcError × DebtState) (LendBorrowPayment × DebtState) :=
  match st.records.find? (fun r => r.id == lbId) with
  | none => Except.error (SvcError.notFound, st)
  | some record =>
      let newPayment : LendBorrowPayment := ⟨freshId, lbId, pay.amount⟩
      let newRemaining := record.remainingAmount - pay.amount
      let newStatus := newStatusAfterPayment record newRemaining
      Except.ok (newPayment,
        ⟨st.records.map (fun r => if r.id == lbId then
            { r with remainingAmount := mathMax 0 newRemaining, status := newStatus } else r),
         st.payments ++ [newPayment]⟩)

/-- LendBorrowService.deletePayment: throws NotFound when the payment is
absent; otherwise removes the payment and, if the owning record exists,
re-sums all remaining payments of that record to recompute remaining amount
and status (baseline pending). -/
def LendBorrowService.deletePayment (pid : String) (st : DebtState) :
    Except (SvcError × DebtState) DebtState :=
  match st.payments.find? (fun p => p.id == pid) with
  | none => Except.error (SvcError.notFound, st)
  | some payment =>
      let remaining := st.payments.filter (fun p => !(p.id == pid))
      match st.records.find? (fun r => r.id == payment.lendBorrowId) with
      | none => Except.ok ⟨st.records, remaining⟩
      | some record =>
          let totalPaid :=
            paymentsSum (remaining.filter (fun p => p.lendBorrowId == payment.lendBorrowId))
          let newRemaining := record.amount - totalPaid
          let newStatus := statusFromRemaining record.amount newRemaining
          Except.ok
            ⟨st.records.map (fun r => if r.id == payment.lendBorrowId then
                { r with remainingAmount := mathMax 0 newRemaining, status := newStatus } else r),
             remaining⟩

/-- C5 witness store: one pending record of amount 5000, no payments yet. -/
def c5st : DebtState := ⟨[⟨"lb1", 5000, 5000, LBStatus.pending⟩], []⟩

/-- C5 witness payment of 2000. -/
def c5pay : PaymentDraft := ⟨2000⟩

/-- C6 witness store: amount 5000, payments 2000 then 3000, completed. -/
def c6st : DebtState :=
  ⟨[⟨"lb1", 5000, 0, LBStatus.completed⟩], [⟨"p1", "lb1", 2000⟩, ⟨"p2", "lb1", 3000⟩]⟩

/-- C6 witness store after deleting the 3000 payment. -/
def c6st1 : DebtState :=
  ⟨[⟨"lb1", 5000, 3000, LBStatus.partiallyPaid⟩], [⟨"p1", "lb1", 2000⟩]⟩

/-- C6 witness store after deleting every payment. -/
def c6st2 : DebtState := ⟨[⟨"lb1", 5000, 5000, LBStatus.pending⟩], []⟩

/-- A budget row. -/
structure Budget where
  id : String
  categoryId : String
  amount : ℚ
  period : String
  month : Int
  year : Int
deriving DecidableEq, Repr

/-- The slice of the Ledger Store the Budget Aggregator writes. -/
structure BudgetState where
  budgets : List Budget
deriving DecidableEq, Repr

/-- The (category, month, year) row filter of getByCategoryAndPeriod. -/
def budgetMatches (cat : String) (m y : Int) (b : Budget) : Bool :=
  b.categoryId == cat && b.month == m && b.year == y

/-- BudgetService.getByCategoryAndPeriod: the first budget row for the
category and period, if any. -/
def BudgetService.getByCategoryAndPeriod (cat : String) (m y : Int) (st : BudgetState) :
    Option Budget :=
  st.budgets.find? (budgetMatches cat m y)

/-- BudgetService.upsertBudget: update-in-place when a budget already exists
for the (category, period), else insert a new row. -/
def BudgetService.upsertBudget (freshId cat : String) (amount : ℚ) (m y : Int)
    (st : BudgetState) : BudgetState :=
  match BudgetService.getByCategoryAndPeriod cat m y st with
  | some existing =>
      ⟨st.budgets.map (fun b => if b.id == existing.id then { b with amount := amount } else b)⟩
  | none => ⟨st.budgets ++ [⟨freshId, cat, amount, "monthly", m, y⟩]⟩

/-- Milliseconds per day, the unit JavaScript Date stores internally. -/
def msPerDay : Int := 86400000

/-- Civil date (year, month 1..12, day 1..31) of a day number relative to
1970-01-01, the proleptic-Gregorian conversion JavaScript dates use. -/
def civilFromDays (z0 : Int) : Int × Int × Int :=
  let z := z0 + 719468
  let era := Int.ediv z 146097
  let doe := z - era * 146097
  let yoe := Int.ediv (doe - Int.ediv doe 1460 + Int.ediv doe 36524 - Int.ediv doe 146096) 365
  let y := yoe + era * 400
  let doy := doe - (365 * yoe + Int.ediv yoe 4 - Int.ediv yoe 100)
  let mp := Int.ediv (5 * doy + 2) 153
  let d := doy - Int.ediv (153 * mp + 2) 5 + 1
  let m := if mp < 10 then mp + 3 else mp - 9
  (if m ≤ 2 then y + 1 else y, m, d)

/-- Day number of a civil date (month 1..12); the day of month may overflow
past the month's end, matching JavaScript MakeDay semantics where the date
is the first of the month plus day-minus-one days. -/
def daysFromCivil (y0 m d : Int) : Int :=
  let y := if m ≤ 2 then y0 - 1 else y0
  let era := Int.ediv y 400
  let yoe := y - era * 400
  let mp := if m > 2 then m - 3 else m + 9
  let doy := Int.ediv (153 * mp + 2) 5 + d - 1
  let doe := yoe * 365 + Int.ediv yoe 4 - Int.ediv yoe 100 + doy
  era * 146097 + doe - 719468

/-- JavaScript date.setMonth(date.getMonth() + k) on a UTC millisecond
timestamp: normalize the month into year and month, rebuild the day with
MakeDay overflow semantics, keep the time of day. -/
def jsAddMonths (t k : Int) : Int :=
  let days := Int.ediv t msPerDay
  let tod := t - days * msPerDay
  let c := civilFromDays days
  let m0 := c.2.1 - 1 + k
  let y2 := c.1 + Int.ediv m0 12
  let m2 := Int.emod m0 12
  daysFromCivil y2 (m2 + 1) c.2.2 * msPerDay + tod

/-- JavaScript date.setFullYear(date.getFullYear() + k), with the same
MakeDay overflow semantics. -/
def jsAddYears (t k : Int) : Int :=
  let days := Int.ediv t msPerDay
  let tod := t - days * msPerDay
  let c := civilFromDays days
  daysFromCivil (c.1 + k) c.2.1 c.2.2 * msPerDay + tod

/-- A bill reminder row, restricted to the columns the scheduler touches. -/
structure BillReminder where
  id : String
  dueDate : Int
  reminderDate : Option Int
  isRecurring : Bool
  frequency : Option String
  isPaid : Bool
  transactionId : Option String
deriving DecidableEq, Repr

/-- The slice of the Ledger Store the Bill Reminder Scheduler writes. -/
structure BillState where
  reminders : List BillReminder
deriving DecidableEq, Repr

/-- The successor reminder createNextRecurring builds for a given next due
date: reminder date shifted by the same absolute lead time, isPaid false,
no linked transaction. -/
def nextRecurringReminder (freshId : String) (r : BillReminder) (nextDue : Int) : BillReminder :=
  ⟨freshId, nextDue,
    r.reminderDate.map (fun rd => nextDue - (r.dueDate - rd)),
    true, r.frequency, false, none⟩

/-- BillReminderService.createNextRecurring: null for a non-recurring
reminder or a missing/unrecognized frequency; otherwise advances dueDate by
one month (monthly) or one year (yearly) and inserts the successor. -/
def BillReminderService.createNextRecurring (freshId : String) (r : BillReminder)
    (st : BillState) : Option BillReminder × BillState :=
  if r.isRecurring = false then (none, st)
  else
    match r.frequency with
    | none => (none, st)
    | some f =>
        if f == "monthly" then
          let nr := nextRecurringReminder freshId r (jsAddMonths r.dueDate 1)
          (some nr, ⟨st.reminders ++ [nr]⟩)
        else if f == "yearly" then
          let nr := nextRecurringReminder freshId r (jsAddYears r.dueDate 1)
          (some nr, ⟨st.reminders ++ [nr]⟩)
        else (none, st)

/-- The row update markAsPaid applies to the matching reminder. -/
def paidUpdate (id : String) (tid : Option String) (x : BillReminder) : BillReminder :=
  if x.id == id then { x with isPaid := true, transactionId := tid } else x

/-- BillReminderService.markAsPaid: NotFound when the reminder is absent;
otherwise sets isPaid with the linking transaction id and, when the loaded
reminder is recurring with a frequency, spawns the next occurrence. -/
def BillReminderService.markAsPaid (freshId id : String) (tid : Option String)
    (st : BillState) : Except (SvcError × BillState) (BillReminder × BillState) :=
  match st.reminders.find? (fun x => x.id == id) with
  | none => Except.error (SvcError.notFound, st)
  | some r =>
      let st1 : BillState := ⟨st.reminders.map (paidUpdate id tid)⟩
      let st2 := if r.isRecurring && r.frequency.isSome then
          (BillReminderService.createNextRecurring freshId r st1).2 else st1
      Except.ok ({ r with isPaid := true, transactionId := tid }, st2)

/-- BillReminderService.markAsUnpaid: clears isPaid and the linked
transaction id on the matching row; no row is ever removed. -/
def BillReminderService.markAsUnpaid (id : String) (st : BillState) :
    Option BillReminder × BillState :=
  let rows := st.reminders.map
    (fun x => if x.id == id then { x with isPaid := false, transactionId := none } else x)
  (rows.find? (fun x => x.id == id), ⟨rows⟩)

/-- The spec example reminder for C7: monthly, due 2024-03-15, reminded
2024-03-12 (3-day lead). -/
def c7reminder : BillReminder :=
  ⟨"b1", daysFromCivil 2024 3 15 * msPerDay, some (daysFromCivil 2024 3 12 * msPerDay),
    true, some "monthly", false, none⟩

/-- Store holding only the C7 example reminder. -/
def c7st : BillState := ⟨[c7reminder]⟩

/-- The C7 example reminder after markAsPaid. -/
def c7paid : BillReminder := { c7reminder with isPaid := true, transactionId := none }

/-- First spawned successor in the C10 scenario. -/
def c10succ1 : BillReminder :=
  nextRecurringReminder "b2" c7reminder (jsAddMonths c7reminder.dueDate 1)

/-- Store after the first markAsPaid of the C10 scenario. -/
def c10st1 : BillState := ⟨[c7paid, c10succ1]⟩

/-- Second spawned successor in the C10 scenario (spawned from the already
paid reminder). -/
def c10succ2 : BillReminder :=
  nextRecurringReminder "b3" c7paid (jsAddMonths c7paid.dueDate 1)

/-- Store after the second markAsPaid of the C10 scenario. -/
def c10st2 : BillState := ⟨[c7paid, c10succ1, c10succ2]⟩

theorem listMapCongr {α β : Type} (f g : α → β) (l : List α) (h : ∀ a, f a = g a) :
    l.map f = l.map g := by
  induction l with
  | nil => rfl
  | cons a t ih => simp [List.map_cons, h a, ih]

theorem listMapSelf {α : Type} (l : List α) : l.map (fun a => a) = l := by
  induction l with
  | nil => rfl
  | cons a t ih => simp [List.map_cons, ih]

theorem updateWalletBalance_eq_map (t : Transaction) (ws : List Wallet) :
    updateWalletBalance t ws =
      ws.map (fun w => Wallet.mk w.id (w.balance + specBalanceDelta t 1 w.id)) := by
  obtain ⟨tid, twal, ttype, tamt, tto, tfee⟩ := t
  cases ttype with
  | income =>
      simp only [updateWalletBalance, specBalanceDelta]
      refine listMapCongr _ _ _ ?_
      intro w
      obtain ⟨wid, wbal⟩ := w
      by_cases h : (wid == twal) = true <;> simp [h] <;> try ring
  | expense =>
      simp only [updateWalletBalance, specBalanceDelta]
      refine listMapCongr _ _ _ ?_
      intro w
      obtain ⟨wid, wbal⟩ := w
      by_cases h : (wid == twal) = true <;> simp [h] <;> try ring
  | transfer =>
      cases tto with
      | none =>
          simp only [updateWalletBalance, specBalanceDelta]
          refine ((listMapCongr _ (fun a => a) ws ?_).trans (listMapSelf ws)).symm
          intro w
          obtain ⟨wid, wbal⟩ := w
          simp
      | some dest =>
          simp only [updateWalletBalance, specBalanceDelta, List.map_map]
          refine listMapCongr _ _ _ ?_
          intro w
          obtain ⟨wid, wbal⟩ := w
          by_cases h1 : (wid == twal) = true <;>
            by_cases h2 : (wid == dest) = true <;>
              simp [h1, h2, Function.comp] <;> try ring

theorem reverseWalletBalance_eq_map (t : Transaction) (ws : List Wallet) :
    reverseWalletBalance t ws =
      ws.map (fun w => Wallet.mk w.id (w.balance + specBalanceDelta t (-1) w.id)) := by
  obtain ⟨tid, twal, ttype, tamt, tto, tfee⟩ := t
  cases ttype with
  | income =>
      simp only [reverseWalletBalance, specBalanceDelta]
      refine listMapCongr _ _ _ ?_
      intro w
      obtain ⟨wid, wbal⟩ := w
      by_cases h : (wid == twal) = true <;> simp [h] <;> try ring
  | expense =>
      simp only [reverseWalletBalance, specBalanceDelta]
      refine listMapCongr _ _ _ ?_
      intro w
      obtain ⟨wid, wbal⟩ := w
      by_cases h : (wid == twal) = true <;> simp [h] <;> try ring
  | transfer =>
      cases tto with
      | none =>
          simp only [reverseWalletBalance, specBalanceDelta]
          refine ((listMapCongr _ (fun a => a) ws ?_).trans (listMapSelf ws)).symm
          intro w
          obtain ⟨wid, wbal⟩ := w
          simp
      | some dest =>
          simp only [reverseWalletBalance, specBalanceDelta, List.map_map]
          refine listMapCongr _ _ _ ?_
          intro w
          obtain ⟨wid, wbal⟩ := w
          by_cases h1 : (wid == twal) = true <;>
            by_cases h2 : (wid == dest) = true <;>
              simp [h1, h2, Function.comp] <;> try ring

theorem specBalanceDelta_neg (t : Transaction) (wid : String) :
    specBalanceDelta t (-1) wid = -(specBalanceDelta t 1 wid) := by
  obtain ⟨tid, twal, ttype, tamt, tto, tfee⟩ := t
  cases ttype with
  | income =>
      simp only [specBalanceDelta]
      by_cases h : (wid == twal) = true <;> simp [h] <;> try ring
  | expense =>
      simp only [specBalanceDelta]
      by_cases h : (wid == twal) = true <;> simp [h] <;> try ring
  | transfer =>
      cases tto with
      | none => simp [specBalanceDelta]
      | some dest =>
          simp only [specBalanceDelta]
          by_cases h1 : (wid == twal) = true <;>
            by_cases h2 : (wid == dest) = true <;> simp [h1, h2] <;> try ring

theorem specBalanceDelta_zero_of_not_ref (t : Transaction) (sign : ℚ) (wid : String)
    (h1 : wid ≠ t.walletId) (h2 : t.toWalletId ≠ some wid) :
    specBalanceDelta t sign wid = 0 := by
  obtain ⟨tid, twal, ttype, tamt, tto, tfee⟩ := t
  simp only at h1 h2
  cases ttype with
  | income => simp [specBalanceDelta, h1]
  | expense => simp [specBalanceDelta, h1]
  | transfer =>
      cases tto with
      | none => simp [specBalanceDelta]
      | some dest =>
          have hdw : ¬(wid = dest) := by
            intro hc
            exact h2 (by simp [hc])
          simp [specBalanceDelta, h1, hdw]

theorem reverse_update_cancel (t : Transaction) (ws : List Wallet) :
    reverseWalletBalance t (updateWalletBalance t ws) = ws := by
  rw [updateWalletBalance_eq_map, reverseWalletBalance_eq_map, List.map_map]
  have hcomp : ((fun w => Wallet.mk w.id (w.balance + specBalanceDelta t (-1) w.id)) ∘
      (fun w : Wallet => Wallet.mk w.id (w.balance + specBalanceDelta t 1 w.id))) = fun w => w := by
    funext w
    obtain ⟨wid, wbal⟩ := w
    simp [Function.comp, specBalanceDelta_neg]
  rw [hcomp, listMapSelf]

theorem listMapCongrMem {α β : Type} (f g : α → β) (l : List α) (h : ∀ a ∈ l, f a = g a) :
    l.map f = l.map g := by
  induction l with
  | nil => rfl
  | cons a t ih =>
      simp only [List.map_cons]
      rw [h a (by simp), ih (fun x hx => h x (by simp [hx]))]

theorem find_append_none {α : Type} (p : α → Bool) (l1 l2 : List α) (h : l1.find? p = none) :
    (l1 ++ l2).find? p = l2.find? p := by
  induction l1 with
  | nil => rfl
  | cons a t ih =>
      cases ha : p a with
      | true => simp [List.find?, ha] at h
      | false =>
          simp only [List.find?, ha] at h
          simp [List.find?, ha, ih h]

theorem find_map_pred {α : Type} (p : α → Bool) (f : α → α) (l : List α) (a : α)
    (hfind : l.find? p = some a) (hid : ∀ x, p x = false → f x = x) (hpf : p (f a) = true) :
    (l.map f).find? p = some (f a) := by
  induction l with
  | nil => simp [List.find?] at hfind
  | cons b t ih =>
      cases hb : p b with
      | true =>
          simp only [List.find?, hb] at hfind
          obtain rfl : b = a := by injection hfind
          simp [List.find?, hpf]
      | false =>
          simp only [List.find?, hb] at hfind
          simp [List.find?, hid b hb, hb, ih hfind]

/-- C1: the Balance Mutator applies exactly the spec's delta table: income
adds amount, expense subtracts it, a transfer subtracts amount plus fee from
the source and adds amount to the destination, a transfer without
destination changes nothing; reversal is the exact negation, and wallets not
referenced by the transaction receive a zero delta. -/
theorem c1_balance_mutator_delta_spec (t : Transaction) (ws : List Wallet) :
    updateWalletBalance t ws =
        ws.map (fun w => Wallet.mk w.id (w.balance + specBalanceDelta t 1 w.id)) ∧
    reverseWalletBalance t ws =
        ws.map (fun w => Wallet.mk w.id (w.balance + specBalanceDelta t (-1) w.id)) ∧
    (∀ wid, specBalanceDelta t (-1) wid = -(specBalanceDelta t 1 wid)) ∧
    (∀ sign wid, wid ≠ t.walletId → t.toWalletId ≠ some wid →
      specBalanceDelta t sign wid = 0) ∧
    (t.type = TxType.transfer → t.toWalletId = none →
      updateWalletBalance t ws = ws ∧ reverseWalletBalance t ws = ws) := by
  refine ⟨updateWalletBalance_eq_map t ws, reverseWalletBalance_eq_map t ws,
    fun wid => specBalanceDelta_neg t wid,
    fun sign wid h1 h2 => specBalanceDelta_zero_of_not_ref t sign wid h1 h2, ?_⟩
  intro ht hto
  constructor
  · simp [updateWalletBalance, ht, hto]
  · simp [reverseWalletBalance, ht, hto]

theorem c1_balance_mutator_delta_spec_witness :
    specBalanceDelta c1tx 1 "C" = 0 ∧
    specBalanceDelta c1tx (-1) "A" = -(specBalanceDelta c1tx 1 "A") ∧
    updateWalletBalance c1txNoDest c1ws = c1ws ∧
    reverseWalletBalance c1txNoDest c1ws = c1ws := by
  refine ⟨(c1_balance_mutator_delta_spec c1tx c1ws).2.2.2.1 1 "C" (by decide) (by decide),
    (c1_balance_mutator_delta_spec c1tx c1ws).2.2.1 "A",
    ((c1_balance_mutator_delta_spec c1txNoDest c1ws).2.2.2.2 (by decide) (by decide)).1,
    ((c1_balance_mutator_delta_spec c1txNoDest c1ws).2.2.2.2 (by decide) (by decide)).2⟩

/-- C2: creating a transaction from any draft under a fresh id and then
deleting the returned transaction restores every wallet balance to its
pre-create value exactly. -/
theorem c2_create_delete_restores_balances (fid : String) (d : TxDraft) (st : LedgerState)
    (h : ∀ t ∈ st.transactions, t.id ≠ fid) :
    (TransactionService.delete (TransactionService.create fid d st).1.id
      (TransactionService.create fid d st).2).wallets = st.wallets := by
  have hnone : st.transactions.find? (fun t => t.id == fid) = none := by
    rw [List.find?_eq_none]
    intro x hx
    simp [h x hx]
  have hone : ([(⟨fid, d.walletId, d.type, d.amount, d.toWalletId, d.transferFee⟩ :
      Transaction)]).find? (fun t => t.id == fid) =
      some ⟨fid, d.walletId, d.type, d.amount, d.toWalletId, d.transferFee⟩ := by
    simp [List.find?]
  simp only [TransactionService.create, TransactionService.delete]
  rw [find_append_none _ _ _ hnone, hone]
  exact reverse_update_cancel _ st.wallets

theorem c2_create_delete_restores_balances_witness :
    walletBalance (TransactionService.create "t1" c2draft c2st).2.wallets "A" = some 800 ∧
    (TransactionService.delete (TransactionService.create "t1" c2draft c2st).1.id
      (TransactionService.create "t1" c2draft c2st).2).wallets = c2st.wallets := by
  refine ⟨?_, c2_create_delete_restores_balances "t1" c2draft c2st (by decide)⟩
  norm_num +decide [walletBalance, TransactionService.create, c2draft, c2st,
    updateWalletBalance, List.find?]

/-- C3: update on an existing transaction first reverses the old row's full
balance effect and then applies the patched row's effect: the returned store
has wallets updateWalletBalance(new, reverseWalletBalance(old, wallets))
and the row replaced by its patched version. -/
theorem c3_update_reverse_then_reapply (id : String) (p : TxPatch) (st : LedgerState)
    (oldT : Transaction) (h : st.transactions.find? (fun t => t.id == id) = some oldT) :
    TransactionService.update id p st =
      Except.ok (applyPatch p oldT,
        ⟨updateWalletBalance (applyPatch p oldT) (reverseWalletBalance oldT st.wallets),
         st.transactions.map (fun t => if t.id == id then applyPatch p t else t)⟩) := by
  have hpa : (oldT.id == id) = true := by
    have h2 := List.find?_some h
    simpa using h2
  have hbeq : oldT.id = id := by simpa using hpa
  have hpf : (((fun t => if t.id == id then applyPatch p t else t) oldT).id == id) = true := by
    simp [hpa, applyPatch, hbeq]
  have hfind2 : (st.transactions.map (fun t => if t.id == id then applyPatch p t else t)).find?
      (fun t => t.id == id) = some (applyPatch p oldT) := by
    have := find_map_pred (fun t => t.id == id)
      (fun t => if t.id == id then applyPatch p t else t) st.transactions oldT h
      (fun x hx => by simp [hx]) hpf
    simpa [hpa] using this
  simp only [TransactionService.update, h]
  rw [hfind2]

theorem c3_update_reverse_then_reapply_witness :
    TransactionService.update "t1" c3patch c3stc =
      Except.ok (applyPatch c3patch c3oldTx,
        ⟨updateWalletBalance (applyPatch c3patch c3oldTx)
            (reverseWalletBalance c3oldTx c3stc.wallets),
         c3stc.transactions.map
            (fun t => if t.id == "t1" then applyPatch c3patch t else t)⟩) ∧
    walletBalance (updateWalletBalance (applyPatch c3patch c3oldTx)
      (reverseWalletBalance c3oldTx c3stc.wallets)) "A" = some 1000 ∧
    walletBalance (updateWalletBalance (applyPatch c3patch c3oldTx)
      (reverseWalletBalance c3oldTx c3stc.wallets)) "B" = some 500 := by
  refine ⟨c3_update_reverse_then_reapply "t1" c3patch c3stc c3oldTx ?_, ?_, ?_⟩
  · norm_num +decide [c3stc, c3st0, c3draft, c3oldTx, TransactionService.create,
      updateWalletBalance, List.find?]
  · norm_num +decide [walletBalance, c3stc, c3st0, c3draft, c3oldTx, c3patch,
      TransactionService.create, applyPatch, updateWalletBalance, reverseWalletBalance,
      List.find?]
  · norm_num +decide [walletBalance, c3stc, c3st0, c3draft, c3oldTx, c3patch,
      TransactionService.create, applyPatch, updateWalletBalance, reverseWalletBalance,
      List.find?]

/-- C4 counterexample: updating a nonexistent transaction id does fail and
leaves the store untouched, but the thrown error is the TypeError from
dereferencing the undefined updated row, not a NotFound error. -/
theorem c4_update_missing_not_notfound_counterexample :
    TransactionService.update "missing" emptyPatch c4st =
      Except.error (SvcError.undefinedAccess, c4st) ∧
    SvcError.undefinedAccess ≠ SvcError.notFound := by
  exact ⟨rfl, by decide⟩

/-- C4 amended: update on an id with no matching transaction fails with the
undefined-row TypeError (not NotFound); the patch is not applied and every
wallet balance and transaction row is exactly as before the call. -/
theorem c4_update_missing_fails_state_preserved (id : String) (p : TxPatch) (st : LedgerState)
    (h : st.transactions.find? (fun t => t.id == id) = none) :
    TransactionService.update id p st = Except.error (SvcError.undefinedAccess, st) := by
  have hall : ∀ x ∈ st.transactions, (x.id == id) = false := by
    intro x hx
    have := List.find?_eq_none.mp h x hx
    simpa using this
  have hmap : st.transactions.map (fun t => if t.id == id then applyPatch p t else t) =
      st.transactions := by
    have := listMapCongrMem (fun t => if t.id == id then applyPatch p t else t)
      (fun t => t) st.transactions (fun x hx => by simp [hall x hx])
    rw [this, listMapSelf]
  simp only [TransactionService.update, h, hmap]

theorem c4_update_missing_fails_state_preserved_witness :
    TransactionService.update "missing" emptyPatch c4st =
      Except.error (SvcError.undefinedAccess, c4st) := by
  exact c4_update_missing_fails_state_preserved "missing" emptyPatch c4st (by decide)

/-- C5: addPayment fails with NotFound (and inserts nothing) when no record
with the given id exists; otherwise it appends exactly the one new payment
row and updates the record to remaining max(0, stored remaining minus the
payment amount), with status completed when that difference is at most 0,
partial when it is strictly between 0 and the record's original amount, and
otherwise unchanged from the stored status. -/
theorem c5_addPayment_spec (fid lbId : String) (pay : PaymentDraft) (st : DebtState) :
    (st.records.find? (fun r => r.id == lbId) = none →
      LendBorrowService.addPayment fid lbId pay st = Except.error (SvcError.notFound, st)) ∧
    (∀ record, st.records.find? (fun r => r.id == lbId) = some record →
      LendBorrowService.addPayment fid lbId pay st =
        Except.ok (⟨fid, lbId, pay.amount⟩,
          ⟨st.records.map (fun r => if r.id == lbId then
              { r with
                remainingAmount := mathMax 0 (record.remainingAmount - pay.amount),
                status := newStatusAfterPayment record (record.remainingAmount - pay.amount) }
            else r),
           st.payments ++ [⟨fid, lbId, pay.amount⟩]⟩) ∧
      (st.records.map (fun r => if r.id == lbId then
          { r with
            remainingAmount := mathMax 0 (record.remainingAmount - pay.amount),
            status := newStatusAfterPayment record (record.remainingAmount - pay.amount) }
        else r)).find? (fun r => r.id == lbId) =
        some { record with
          remainingAmount := mathMax 0 (record.remainingAmount - pay.amount),
          status := newStatusAfterPayment record (record.remainingAmount - pay.amount) }) := by
  constructor
  · intro h
    simp only [LendBorrowService.addPayment, h]
  · intro record h
    have hpr : (record.id == lbId) = true := by
      have h2 := List.find?_some h
      simpa using h2
    constructor
    · simp only [LendBorrowService.addPayment, h]
    · have hpf : (((fun r => if r.id == lbId then
          { r with
            remainingAmount := mathMax 0 (record.remainingAmount - pay.amount),
            status := newStatusAfterPayment record (record.remainingAmount - pay.amount) }
          else r) record).id == lbId) = true := by
        simp [hpr]
      have hmain := find_map_pred (fun r => r.id == lbId)
        (fun r => if r.id == lbId then
          { r with
            remainingAmount := mathMax 0 (record.remainingAmount - pay.amount),
            status := newStatusAfterPayment record (record.remainingAmount - pay.amount) }
          else r) st.records record h (fun x hx => by simp [hx]) hpf
      simpa [hpr] using hmain

theorem c5_addPayment_spec_witness :
    LendBorrowService.addPayment "pay9" "nope" c5pay c5st =
      Except.error (SvcError.notFound, c5st) ∧
    LendBorrowService.addPayment "pay1" "lb1" c5pay c5st =
      Except.ok (⟨"pay1", "lb1", 2000⟩,
        ⟨[⟨"lb1", 5000, 3000, LBStatus.partiallyPaid⟩], [⟨"pay1", "lb1", 2000⟩]⟩) := by
  constructor
  · exact (c5_addPayment_spec "pay9" "nope" c5pay c5st).1
      (by norm_num +decide [c5st, List.find?])
  · have h := ((c5_addPayment_spec "pay1" "lb1" c5pay c5st).2
      ⟨"lb1", 5000, 5000, LBStatus.pending⟩ (by norm_num +decide [c5st, List.find?])).1
    refine h.trans ?_
    norm_num +decide [c5st, c5pay, mathMax, newStatusAfterPayment]

/-- C6: deletePayment fails with NotFound when no payment with the given id
exists; otherwise it removes that payment and recomputes the owning record
from the full remaining payment history: remaining max(0, amount minus the
sum of all remaining payments), with status completed / partial / pending by
the same thresholds as addPayment, allowing status to move backward. -/
theorem c6_deletePayment_resum_spec (pid : String) (st : DebtState) :
    (st.payments.find? (fun p => p.id == pid) = none →
      LendBorrowService.deletePayment pid st = Except.error (SvcError.notFound, st)) ∧
    (∀ payment, st.payments.find? (fun p => p.id == pid) = some payment →
      ∀ record, st.records.find? (fun r => r.id == payment.lendBorrowId) = some record →
      LendBorrowService.deletePayment pid st =
        Except.ok
          ⟨st.records.map (fun r => if r.id == payment.lendBorrowId then
              { r with
                remainingAmount := mathMax 0 (record.amount - paymentsSum
                  ((st.payments.filter (fun p => !(p.id == pid))).filter
                    (fun p => p.lendBorrowId == payment.lendBorrowId))),
                status := statusFromRemaining record.amount (record.amount - paymentsSum
                  ((st.payments.filter (fun p => !(p.id == pid))).filter
                    (fun p => p.lendBorrowId == payment.lendBorrowId))) }
            else r),
           st.payments.filter (fun p => !(p.id == pid))⟩ ∧
      (st.records.map (fun r => if r.id == payment.lendBorrowId then
          { r with
            remainingAmount := mathMax 0 (record.amount - paymentsSum
              ((st.payments.filter (fun p => !(p.id == pid))).filter
                (fun p => p.lendBorrowId == payment.lendBorrowId))),
            status := statusFromRemaining record.amount (record.amount - paymentsSum
              ((st.payments.filter (fun p => !(p.id == pid))).filter
                (fun p => p.lendBorrowId == payment.lendBorrowId))) }
        else r)).find? (fun r => r.id == payment.lendBorrowId) =
        some { record with
          remainingAmount := mathMax 0 (record.amount - paymentsSum
            ((st.payments.filter (fun p => !(p.id == pid))).filter
              (fun p => p.lendBorrowId == payment.lendBorrowId))),
          status := statusFromRemaining record.amount (record.amount - paymentsSum
            ((st.payments.filter (fun p => !(p.id == pid))).filter
              (fun p => p.lendBorrowId == payment.lendBorrowId))) }) := by
  constructor
  · intro h
    simp only [LendBorrowService.deletePayment, h]
  · intro payment hp record hr
    have hpr : (record.id == payment.lendBorrowId) = true := by
      have h2 := List.find?_some hr
      simpa using h2
    constructor
    · simp only [LendBorrowService.deletePayment, hp, hr]
    · have hpf : (((fun r => if r.id == payment.lendBorrowId then
          { r with
            remainingAmount := mathMax 0 (record.amount - paymentsSum
              ((st.payments.filter (fun p => !(p.id == pid))).filter
                (fun p => p.lendBorrowId == payment.lendBorrowId))),
            status := statusFromRemaining record.amount (record.amount - paymentsSum
              ((st.payments.filter (fun p => !(p.id == pid))).filter
                (fun p => p.lendBorrowId == payment.lendBorrowId))) }
          else r) record).id == payment.lendBorrowId) = true := by
        simp [hpr]
      have hmain := find_map_pred (fun r => r.id == payment.lendBorrowId)
        (fun r => if r.id == payment.lendBorrowId then
          { r with
            remainingAmount := mathMax 0 (record.amount - paymentsSum
              ((st.payments.filter (fun p => !(p.id == pid))).filter
                (fun p => p.lendBorrowId == payment.lendBorrowId))),
            status := statusFromRemaining record.amount (record.amount - paymentsSum
              ((st.payments.filter (fun p => !(p.id == pid))).filter
                (fun p => p.lendBorrowId == payment.lendBorrowId))) }
          else r) st.records record hr (fun x hx => by simp [hx]) hpf
      simpa [hpr] using hmain

theorem c6_deletePayment_resum_spec_witness :
    LendBorrowService.deletePayment "p2" c6st = Except.ok c6st1 ∧
    LendBorrowService.deletePayment "p1" c6st1 = Except.ok c6st2 ∧
    LendBorrowService.deletePayment "zz" c6st2 =
      Except.error (SvcError.notFound, c6st2) := by
  refine ⟨?_, ?_, ?_⟩
  · have h := ((c6_deletePayment_resum_spec "p2" c6st).2
      ⟨"p2", "lb1", 3000⟩ (by norm_num +decide [c6st, List.find?])
      ⟨"lb1", 5000, 0, LBStatus.completed⟩ (by norm_num +decide [c6st, List.find?])).1
    refine h.trans ?_
    norm_num +decide [c6st, c6st1, mathMax, paymentsSum, statusFromRemaining, List.filter]
  · have h := ((c6_deletePayment_resum_spec "p1" c6st1).2
      ⟨"p1", "lb1", 2000⟩ (by norm_num +decide [c6st1, List.find?])
      ⟨"lb1", 5000, 3000, LBStatus.partiallyPaid⟩
      (by norm_num +decide [c6st1, List.find?])).1
    refine h.trans ?_
    norm_num +decide [c6st1, c6st2, mathMax, paymentsSum, statusFromRemaining, List.filter]
  · exact (c6_deletePayment_resum_spec "zz" c6st2).1
      (by norm_num +decide [c6st2, List.find?])

/-- C9 counterexample: a create request supplying amount 0 and
remaining_amount 0 produces a record whose remaining_amount is 0 — a record
CAN be created directly in a state with remaining_amount 0, contradicting
the claim's consequence. -/
theorem c9_zero_amount_counterexample :
    ((LendBorrowService.create "lb0" ⟨0, 0, none⟩ ⟨[], []⟩).1).remainingAmount = 0 := by
  norm_num [LendBorrowService.create]

/-- C9 amended: a supplied remaining_amount of 0 is falsy and replaced by
the record's amount, so the created record has remaining_amount equal to
amount; consequently a directly created record can have remaining_amount 0
only when its amount is 0 — for every create request with nonzero amount no
record is created with remaining_amount 0. -/
theorem c9_remaining_default_amended (fid : String) (rec : NewLendBorrow) (st : DebtState) :
    (rec.remainingAmount = 0 →
      ((LendBorrowService.create fid rec st).1).remainingAmount = rec.amount) ∧
    (((LendBorrowService.create fid rec st).1).remainingAmount = 0 → rec.amount = 0) := by
  constructor
  · intro h
    simp [LendBorrowService.create, h]
  · intro h
    by_cases hz : rec.remainingAmount = 0
    · simpa [LendBorrowService.create, hz] using h
    · exact absurd (by simpa [LendBorrowService.create, hz] using h) hz

theorem c9_remaining_default_amended_witness :
    ((LendBorrowService.create "lb1" ⟨5000, 0, none⟩ ⟨[], []⟩).1).remainingAmount = 5000 := by
  have h := (c9_remaining_default_amended "lb1" ⟨5000, 0, none⟩ ⟨[], []⟩).1 (by norm_num)
  simpa using h

theorem filter_eq_nil_of_find_none {α : Type} (p : α → Bool) (l : List α)
    (h : l.find? p = none) : l.filter p = [] := by
  induction l with
  | nil => rfl
  | cons a t ih =>
      cases ha : p a with
      | true => simp [List.find?, ha] at h
      | false =>
          simp only [List.find?, ha] at h
          simp [List.filter, ha, ih h]

theorem find_eq_head_filter {α : Type} (p : α → Bool) (l : List α) :
    l.find? p = (l.filter p).head? := by
  induction l with
  | nil => rfl
  | cons a t ih =>
      cases ha : p a with
      | true => simp [List.find?_cons, List.filter_cons, ha]
      | false =>
          rw [List.find?_cons, List.filter_cons, ha]
          simpa using ih

theorem filter_map_pred_inv {α : Type} (p : α → Bool) (f : α → α) (l : List α)
    (hf : ∀ a, p (f a) = p a) :
    (l.map f).filter p = (l.filter p).map f := by
  induction l with
  | nil => rfl
  | cons a t ih => cases ha : p a <;> simp [List.filter, hf a, ha, ih]

theorem filter_eq_singleton_of_head_of_len {α : Type} (p : α → Bool) (l : List α) (a : α)
    (hh : (l.filter p).head? = some a) (hlen : (l.filter p).length ≤ 1) :
    l.filter p = [a] := by
  cases hl : l.filter p with
  | nil => rw [hl] at hh; cases hh
  | cons x t =>
      rw [hl] at hh hlen
      obtain rfl : x = a := by
        simp only [List.head?] at hh
        injection hh
      cases t with
      | nil => rfl
      | cons y t2 => simp at hlen

/-- C8: starting from a store with at most one budget row for the given
(category, month, year), two upsertBudget calls for that period with
amounts a1 then a2 leave exactly one budget row for the period, and its
amount is a2, the amount of the second call. -/
theorem c8_upsert_idempotence (id1 id2 cat : String) (a1 a2 : ℚ) (m y : Int) (st : BudgetState)
    (h : (st.budgets.filter (budgetMatches cat m y)).length ≤ 1) :
    ((BudgetService.upsertBudget id2 cat a2 m y
        (BudgetService.upsertBudget id1 cat a1 m y st)).budgets.filter
      (budgetMatches cat m y)).map (fun b => b.amount) = [a2] := by
  cases hf : st.budgets.find? (budgetMatches cat m y) with
  | none =>
      have hnil : st.budgets.filter (budgetMatches cat m y) = [] :=
        filter_eq_nil_of_find_none _ _ hf
      have hb1 : budgetMatches cat m y ⟨id1, cat, a1, "monthly", m, y⟩ = true := by
        simp [budgetMatches]
      have hfilter1 : (st.budgets ++ [(⟨id1, cat, a1, "monthly", m, y⟩ : Budget)]).filter
          (budgetMatches cat m y) = [⟨id1, cat, a1, "monthly", m, y⟩] := by
        rw [List.filter_append, hnil]
        simp [hb1]
      have hfind2 : (st.budgets ++ [(⟨id1, cat, a1, "monthly", m, y⟩ : Budget)]).find?
          (budgetMatches cat m y) = some ⟨id1, cat, a1, "monthly", m, y⟩ := by
        rw [find_eq_head_filter, hfilter1]
        rfl
      have hg2inv : ∀ b : Budget, budgetMatches cat m y
          (if b.id == id1 then { b with amount := a2 } else b) = budgetMatches cat m y b := by
        intro b
        by_cases hb : (b.id == id1) = true <;> simp [hb, budgetMatches]
      simp only [BudgetService.upsertBudget, BudgetService.getByCategoryAndPeriod, hf, hfind2]
      rw [filter_map_pred_inv _ _ _ hg2inv, hfilter1]
      simp
  | some b0 =>
      have hp0 : budgetMatches cat m y b0 = true := List.find?_some hf
      have hh : (st.budgets.filter (budgetMatches cat m y)).head? = some b0 := by
        rw [← find_eq_head_filter]
        exact hf
      have hfilter0 : st.budgets.filter (budgetMatches cat m y) = [b0] :=
        filter_eq_singleton_of_head_of_len _ _ _ hh h
      have hg1inv : ∀ b : Budget, budgetMatches cat m y
          (if b.id == b0.id then { b with amount := a1 } else b) = budgetMatches cat m y b := by
        intro b
        by_cases hb : (b.id == b0.id) = true <;> simp [hb, budgetMatches]
      have hfilter1 : (st.budgets.map
          (fun b => if b.id == b0.id then { b with amount := a1 } else b)).filter
          (budgetMatches cat m y) = [{ b0 with amount := a1 }] := by
        rw [filter_map_pred_inv _ _ _ hg1inv, hfilter0]
        simp
      have hfind2 : (st.budgets.map
          (fun b => if b.id == b0.id then { b with amount := a1 } else b)).find?
          (budgetMatches cat m y) = some { b0 with amount := a1 } := by
        rw [find_eq_head_filter, hfilter1]
        rfl
      have hg2inv : ∀ b : Budget, budgetMatches cat m y
          (if b.id == b0.id then { b with amount := a2 } else b) = budgetMatches cat m y b := by
        intro b
        by_cases hb : (b.id == b0.id) = true <;> simp [hb, budgetMatches]
      simp only [BudgetService.upsertBudget, BudgetService.getByCategoryAndPeriod, hf, hfind2]
      rw [filter_map_pred_inv _ _ _ hg2inv, hfilter1]
      simp

theorem c8_upsert_idempotence_witness :
    ((BudgetService.upsertBudget "b2" "groceries" 12000 3 2024
        (BudgetService.upsertBudget "b1" "groceries" 10000 3 2024 ⟨[]⟩)).budgets.filter
      (budgetMatches "groceries" 3 2024)).map (fun b => b.amount) = [12000] ∧
    ((BudgetService.upsertBudget "b2" "groceries" 12000 3 2024
        (BudgetService.upsertBudget "b1" "groceries" 10000 3 2024 ⟨[]⟩)).budgets.filter
      (budgetMatches "groceries" 3 2024)).length = 1 := by
  constructor
  · exact c8_upsert_idempotence "b1" "b2" "groceries" 10000 12000 3 2024 ⟨[]⟩ (by simp)
  · norm_num +decide [BudgetService.upsertBudget, BudgetService.getByCategoryAndPeriod,
      budgetMatches, List.find?, List.filter]

theorem find_append_some {α : Type} (p : α → Bool) (l1 l2 : List α) (a : α)
    (h : l1.find? p = some a) : (l1 ++ l2).find? p = some a := by
  induction l1 with
  | nil => cases h
  | cons b t ih =>
      cases hb : p b with
      | true =>
          simp only [List.find?_cons, hb, if_true] at h
          simp [List.find?_cons, hb, h]
      | false =>
          simp only [List.find?_cons, hb] at h
          simp only [List.cons_append, List.find?_cons, hb]
          exact ih (by simpa using h)

theorem markAsPaid_spawns_monthly (fid id : String) (tid : Option String) (st : BillState)
    (r : BillReminder) (h : st.reminders.find? (fun x => x.id == id) = some r)
    (hrec : r.isRecurring = true) (hf : r.frequency = some "monthly") :
    BillReminderService.markAsPaid fid id tid st =
      Except.ok ({ r with isPaid := true, transactionId := tid },
        ⟨st.reminders.map (paidUpdate id tid) ++
          [nextRecurringReminder fid r (jsAddMonths r.dueDate 1)]⟩) := by
  have hguard : (r.isRecurring && r.frequency.isSome) = true := by
    rw [hrec, hf]
    rfl
  simp only [BillReminderService.markAsPaid, h]
  simp +decide [hguard, BillReminderService.createNextRecurring, hrec, hf]

theorem markAsPaid_spawns_yearly (fid id : String) (tid : Option String) (st : BillState)
    (r : BillReminder) (h : st.reminders.find? (fun x => x.id == id) = some r)
    (hrec : r.isRecurring = true) (hf : r.frequency = some "yearly") :
    BillReminderService.markAsPaid fid id tid st =
      Except.ok ({ r with isPaid := true, transactionId := tid },
        ⟨st.reminders.map (paidUpdate id tid) ++
          [nextRecurringReminder fid r (jsAddYears r.dueDate 1)]⟩) := by
  have hguard : (r.isRecurring && r.frequency.isSome) = true := by
    rw [hrec, hf]
    rfl
  simp only [BillReminderService.markAsPaid, h]
  simp +decide [hguard, BillReminderService.createNextRecurring, hrec, hf]

/-- C7: markAsPaid on an existing recurring reminder with a recognized
frequency spawns exactly one successor appended to the table: dueDate
advanced by one month (monthly) or one year (yearly), reminderDate shifted
so the absolute lead time before the due date is preserved, isPaid false;
markAsPaid on a nonexistent id fails with NotFound, and createNextRecurring
returns null for an unrecognized frequency. -/
theorem c7_recurring_regeneration_spec :
    (∀ fid id tid st, st.reminders.find? (fun x => x.id == id) = none →
      BillReminderService.markAsPaid fid id tid st = Except.error (SvcError.notFound, st)) ∧
    (∀ fid id tid st r, st.reminders.find? (fun x => x.id == id) = some r →
      r.isRecurring = true →
      (r.frequency = some "monthly" →
        BillReminderService.markAsPaid fid id tid st =
          Except.ok ({ r with isPaid := true, transactionId := tid },
            ⟨st.reminders.map (paidUpdate id tid) ++
              [nextRecurringReminder fid r (jsAddMonths r.dueDate 1)]⟩)) ∧
      (r.frequency = some "yearly" →
        BillReminderService.markAsPaid fid id tid st =
          Except.ok ({ r with isPaid := true, transactionId := tid },
            ⟨st.reminders.map (paidUpdate id tid) ++
              [nextRecurringReminder fid r (jsAddYears r.dueDate 1)]⟩))) ∧
    (∀ fid r st f, r.frequency = some f → f ≠ "monthly" → f ≠ "yearly" →
      BillReminderService.createNextRecurring fid r st = (none, st)) ∧
    (∀ fid r due, (nextRecurringReminder fid r due).isPaid = false ∧
      ∀ rd, r.reminderDate = some rd →
        (nextRecurringReminder fid r due).reminderDate = some (due - (r.dueDate - rd)) ∧
        due - (due - (r.dueDate - rd)) = r.dueDate - rd) := by
  refine ⟨?_, ?_, ?_, ?_⟩
  · intro fid id tid st h
    simp only [BillReminderService.markAsPaid, h]
  · intro fid id tid st r h hrec
    exact ⟨fun hf => markAsPaid_spawns_monthly fid id tid st r h hrec hf,
      fun hf => markAsPaid_spawns_yearly fid id tid st r h hrec hf⟩
  · intro fid r st f hf hm hy
    by_cases hrec : r.isRecurring = true
    · have hbm : (f == "monthly") = false := by simp [hm]
      have hby : (f == "yearly") = false := by simp [hy]
      simp [BillReminderService.createNextRecurring, hrec, hf, hbm, hby]
    · have hrec2 : r.isRecurring = false := by
        cases hval : r.isRecurring
        · rfl
        · exact absurd hval hrec
      simp [BillReminderService.createNextRecurring, hrec2]
  · intro fid r due
    refine ⟨rfl, ?_⟩
    intro rd hrd
    constructor
    · simp [nextRecurringReminder, hrd]
    · ring

theorem c7_recurring_regeneration_spec_witness :
    BillReminderService.markAsPaid "b2" "b1" none c7st =
      Except.ok (c7paid, ⟨[c7paid, c10succ1]⟩) ∧
    c10succ1.dueDate = daysFromCivil 2024 4 15 * msPerDay ∧
    c10succ1.reminderDate = some (daysFromCivil 2024 4 12 * msPerDay) ∧
    c10succ1.isPaid = false ∧
    BillReminderService.markAsPaid "zz" "nope" none c7st =
      Except.error (SvcError.notFound, c7st) ∧
    (BillReminderService.createNextRecurring "b9"
      { c7reminder with frequency := some "weekly" } c7st).1 = none := by
  refine ⟨?_, by decide, by decide, by decide, ?_, ?_⟩
  · have h := (c7_recurring_regeneration_spec.2.1 "b2" "b1" none c7st c7reminder
      (by decide) (by decide)).1 (by decide)
    exact h.trans (congrArg Except.ok (by decide))
  · exact c7_recurring_regeneration_spec.1 "zz" "nope" none c7st (by decide)
  · have h2 := c7_recurring_regeneration_spec.2.2.1 "b9"
      ({ c7reminder with frequency := some "weekly" }) c7st "weekly"
      (by decide) (by decide) (by decide)
    rw [h2]

/-- C10: markAsPaid is not idempotent for recurring reminders: on an
existing reminder with a recognized frequency, every call appends one more
successor regardless of the stored isPaid flag, so two consecutive calls
grow the table by two; markAsUnpaid never removes a row. -/
theorem c10_markAsPaid_not_idempotent :
    (∀ fid1 fid2 id tid1 tid2 st r x1 st1,
      st.reminders.find? (fun x => x.id == id) = some r →
      r.isRecurring = true →
      (r.frequency = some "monthly" ∨ r.frequency = some "yearly") →
      BillReminderService.markAsPaid fid1 id tid1 st = Except.ok (x1, st1) →
      st1.reminders.length = st.reminders.length + 1 ∧
      ∃ x2 st2, BillReminderService.markAsPaid fid2 id tid2 st1 = Except.ok (x2, st2) ∧
        st2.reminders.length = st.reminders.length + 2) ∧
    (∀ id st, (BillReminderService.markAsUnpaid id st).2.reminders.length =
      st.reminders.length) := by
  constructor
  · intro fid1 fid2 id tid1 tid2 st r x1 st1 h hrec hfreq h4
    have hpr : (r.id == id) = true := by
      have h2 := List.find?_some h
      simpa using h2
    have hpu : paidUpdate id tid1 r = { r with isPaid := true, transactionId := tid1 } := by
      simp [paidUpdate, hpr]
    have hfindMap : (st.reminders.map (paidUpdate id tid1)).find? (fun x => x.id == id) =
        some (paidUpdate id tid1 r) :=
      find_map_pred (fun x => x.id == id) (paidUpdate id tid1) st.reminders r h
        (fun x hx => by simp [paidUpdate, hx]) (by simp [paidUpdate, hpr])
    cases hfreq with
    | inl hm =>
        have hcomp := markAsPaid_spawns_monthly fid1 id tid1 st r h hrec hm
        rw [hcomp] at h4
        have h5 := Except.ok.inj h4
        have hst : st1 = ⟨st.reminders.map (paidUpdate id tid1) ++
            [nextRecurringReminder fid1 r (jsAddMonths r.dueDate 1)]⟩ :=
          (congrArg Prod.snd h5).symm
        subst hst
        constructor
        · simp [List.length_append, List.length_map]
        · have hfind2 : (st.reminders.map (paidUpdate id tid1) ++
              [nextRecurringReminder fid1 r (jsAddMonths r.dueDate 1)]).find?
              (fun x => x.id == id) = some { r with isPaid := true, transactionId := tid1 } := by
            rw [← hpu]
            exact find_append_some _ _ _ _ hfindMap
          have hcomp2 := markAsPaid_spawns_monthly fid2 id tid2
            ⟨st.reminders.map (paidUpdate id tid1) ++
              [nextRecurringReminder fid1 r (jsAddMonths r.dueDate 1)]⟩
            ({ r with isPaid := true, transactionId := tid1 }) hfind2 hrec hm
          refine ⟨_, _, hcomp2, ?_⟩
          simp [List.length_append, List.length_map]
    | inr hy =>
        have hcomp := markAsPaid_spawns_yearly fid1 id tid1 st r h hrec hy
        rw [hcomp] at h4
        have h5 := Except.ok.inj h4
        have hst : st1 = ⟨st.reminders.map (paidUpdate id tid1) ++
            [nextRecurringReminder fid1 r (jsAddYears r.dueDate 1)]⟩ :=
          (congrArg Prod.snd h5).symm
        subst hst
        constructor
        · simp [List.length_append, List.length_map]
        · have hfind2 : (st.reminders.map (paidUpdate id tid1) ++
              [nextRecurringReminder fid1 r (jsAddYears r.dueDate 1)]).find?
              (fun x => x.id == id) = some { r with isPaid := true, transactionId := tid1 } := by
            rw [← hpu]
            exact find_append_some _ _ _ _ hfindMap
          have hcomp2 := markAsPaid_spawns_yearly fid2 id tid2
            ⟨st.reminders.map (paidUpdate id tid1) ++
              [nextRecurringReminder fid1 r (jsAddYears r.dueDate 1)]⟩
            ({ r with isPaid := true, transactionId := tid1 }) hfind2 hrec hy
          refine ⟨_, _, hcomp2, ?_⟩
          simp [List.length_append, List.length_map]
  · intro id st
    simp [BillReminderService.markAsUnpaid]

theorem c10_markAsPaid_not_idempotent_witness :
    BillReminderService.markAsPaid "b2" "b1" none c7st = Except.ok (c7paid, c10st1) ∧
    c10st1.reminders.length = c7st.reminders.length + 1 ∧
    BillReminderService.markAsPaid "b3" "b1" none c10st1 = Except.ok (c7paid, c10st2) ∧
    c10st2.reminders.length = c7st.reminders.length + 2 ∧
    (BillReminderService.markAsUnpaid "b1" c10st2).2.reminders.length =
      c10st2.reminders.length := by
  refine ⟨by rfl, ?_, by rfl, by decide, ?_⟩
  · exact (c10_markAsPaid_not_idempotent.1 "b2" "b3" "b1" none none c7st c7reminder
      c7paid c10st1 (by decide) (by decide) (Or.inl (by decide)) (by rfl)).1
  · exact c10_markAsPaid_not_idempotent.2 "b1" c10st2
